import Mathlib

/-!
Verification of the H20Fetcher batch pipeline (`main.go`) against its
natural-language specification.

The Go program is shallowly embedded below.  Pure helpers become Lean
functions; the stateful scheduler loop of `main` becomes an explicit
state-passing fold (`RunState`), executed in goroutine dispatch order.
External effects are abstracted as oracle parameters: the HTTP exchange of
`getSupplierForPostcode` becomes a `FetchOutcome` value, the three
`regexp.FindStringSubmatch` calls of `extractSupplierDetails` become
functions returning the first capture group when the pattern matches, and
the per-postcode lookup result consumed by the scheduler becomes a
`fetch : String -> PostcodeResult` oracle.
-/

set_option maxRecDepth 10000

/-- Embedding of the Go struct `PostcodeResult` (main.go lines 21 to 26). -/
structure PostcodeResult where
  postcode : String
  supplier : String
  phone : String
  link : String
  deriving DecidableEq

/-- Embedding of the Go struct `Progress` (main.go lines 34 to 38). -/
structure Progress where
  lastFile : String
  lastPostcode : String
  completed : Bool
  deriving DecidableEq

/-- `maxRetries` constant (main.go line 41). -/
def maxRetries : Nat := 3

/-- `maxGoroutines` constant (main.go line 42). -/
def maxGoroutines : Nat := 3

/-- Embedding of `extractSupplierDetails` (main.go lines 395 to 428).  The
three fixed regular expressions are abstracted as oracles returning the
first capture group when the pattern matches the body (`FindStringSubmatch`
returning a slice of length greater than 1) and `none` otherwise.  The
returned map is represented as a (name, phone, link) triple. -/
def extractSupplierDetails (matchName matchPhone matchLink : String → Option String)
    (body : String) : String × String × String :=
  ((matchName body).getD "Not Found",
   (matchPhone body).getD "Not Found",
   (matchLink body).getD "Not Found")

/-- Outcome of reading the HTTP response body and parsing it as JSON
(main.go lines 370 to 381): a read error, a malformed JSON body, or a
successfully parsed `[]AjaxResponse` represented by its `Data` fields. -/
inductive BodyOutcome where
  | readError : BodyOutcome
  | malformed : BodyOutcome
  | envelopes : List String → BodyOutcome
  deriving DecidableEq

/-- Outcome of the outbound HTTP exchange of `getSupplierForPostcode`
(main.go lines 345 to 367): request construction error, transport error
from `client.Do`, or a response with a status code and a body. -/
inductive FetchOutcome where
  | requestError : FetchOutcome
  | transportError : FetchOutcome
  | response : Nat → BodyOutcome → FetchOutcome
  deriving DecidableEq

/-- Result of one call to `getSupplierForPostcode`: either a returned
record, or a runtime panic (index out of range). -/
inductive LookupOutcome where
  | ok : PostcodeResult → LookupOutcome
  | panicked : LookupOutcome
  deriving DecidableEq

/-- Embedding of `getSupplierForPostcode` (main.go lines 329 to 392).
Every error path before the JSON parse returns the zero-value record with
only the postcode filled in (so `supplier = ""`).  After a successful
parse, index 2 of the envelope array is read without a length check
(line 384): a shorter array makes the Go program panic. -/
def getSupplierForPostcode (pc : String) (outcome : FetchOutcome)
    (matchName matchPhone matchLink : String → Option String) : LookupOutcome :=
  match outcome with
  | .requestError => .ok ⟨pc, "", "", ""⟩
  | .transportError => .ok ⟨pc, "", "", ""⟩
  | .response status body =>
    if status ≠ 200 then .ok ⟨pc, "", "", ""⟩
    else
      match body with
      | .readError => .ok ⟨pc, "", "", ""⟩
      | .malformed => .ok ⟨pc, "", "", ""⟩
      | .envelopes datas =>
        match datas[2]? with
        | none => .panicked
        | some d =>
          let s := extractSupplierDetails matchName matchPhone matchLink d
          .ok ⟨pc, s.1, s.2.1, s.2.2⟩

/-- The retry loop of `getSupplierForPostcodeWithRetries` (main.go lines
308 to 322): `fuel` attempts remain, `i` is the current attempt index, and
`last` is the Go variable `result` holding the previously obtained record.
A panic inside an attempt propagates (the wrapper does not recover). -/
def retriesAux (attempt : Nat → LookupOutcome) : Nat → Nat → PostcodeResult → LookupOutcome
  | 0, _, last => .ok last
  | fuel + 1, i, _ =>
    match attempt i with
    | .panicked => .panicked
    | .ok r =>
      if r.supplier != "Not Found" then .ok r
      else retriesAux attempt fuel (i + 1) r

/-- Embedding of `getSupplierForPostcodeWithRetries` (main.go lines 305 to
326).  The per-attempt outcome of `getSupplierForPostcode` is supplied by
the oracle `attempt`; the initial `last` record is Go's zero value. -/
def getSupplierForPostcodeWithRetries (attempt : Nat → LookupOutcome)
    (retries : Nat) : LookupOutcome :=
  retriesAux attempt retries 0 ⟨"", "", "", ""⟩

/-- Outcome of `saveResultsToJSON` (main.go lines 289 to 302): `log.Fatalf`
terminates the whole process. -/
inductive PersistOutcome where
  | saved : PersistOutcome
  | fatalExit : PersistOutcome
  deriving DecidableEq

/-- Embedding of `saveResultsToJSON` (main.go lines 289 to 302): a marshal
failure or a file-write failure both call `log.Fatalf`, which exits the
process; only a fully successful write returns. -/
def saveResultsToJSON (marshalOk writeOk : Bool) : PersistOutcome :=
  if marshalOk = false then .fatalExit
  else if writeOk = false then .fatalExit
  else .saved

/-- Whether the batch loop keeps running after a step. -/
inductive BatchControl where
  | proceed : BatchControl
  | halted : BatchControl
  deriving DecidableEq

/-- Embedding of the error drain at the batch boundary (main.go lines 224
to 228): a non-blocking `select` logs at most one queued progress-save
error and falls through; it never halts the loop. -/
def drainErrorsChan (queued : List String) : List String × BatchControl :=
  match queued with
  | [] => ([], .proceed)
  | e :: _ => ([e], .proceed)

/-- The sequentialized state of one run of `main` (main.go lines 99 to
255).  Besides the program state proper (`progress`, `results`, the
`processedPostcodes` skip-set, and the in-flight batch results pending on
`resultsChan`), the run records its observable events: the postcodes
reaching the loop body (`considered`), the postcodes passed to the lookup
client (`lookedUp`), the result-store flushes with the collection size and
an end-of-file tag (`flushes`), and the persisted progress snapshots
(`progressSaves`). -/
structure RunState where
  progress : Progress
  results : List PostcodeResult
  skip : List String
  pending : List PostcodeResult
  lookedUp : List String
  considered : List String
  flushes : List (Nat × Bool)
  progressSaves : List Progress
  deriving DecidableEq

/-- The goroutine body's progress update (main.go lines 193 to 200): the
ledger is overwritten and persisted only when the dispatched index exceeds
the file's resume start index; the looked-up record itself is not
consulted. -/
def updateProgressForRecord (filename pc : String) (idx startJ : Nat)
    (st : RunState) : RunState :=
  if idx > startJ then
    let p : Progress := ⟨filename, pc, st.progress.completed⟩
    { st with progress := p, progressSaves := st.progressSaves ++ [p] }
  else st

/-- Folding one collected record into the committed state (main.go lines
211 to 216): only a record whose supplier is neither empty nor the
sentinel joins the results and the skip-set. -/
def commitRecord (st : RunState) (r : PostcodeResult) : RunState :=
  if r.supplier != "" && r.supplier != "Not Found" then
    { st with skip := st.skip ++ [r.postcode], results := st.results ++ [r] }
  else st

/-- The batch-boundary collection (main.go lines 204 to 232): drain the
results channel, commit qualifying records, flush the results file when
the cumulative collection size is divisible by 10, and reset the channels. -/
def collectBatch (st : RunState) : RunState :=
  let st := st.pending.foldl commitRecord st
  let st :=
    if st.results.length % 10 == 0 then
      { st with flushes := st.flushes ++ [(st.results.length, false)] }
    else st
  { st with pending := [] }

/-- One iteration of the inner postcode loop (main.go lines 174 to 234)
at index `j`: skip-set check, dispatch of the lookup, the goroutine's
progress update, and the batch-boundary collection.  A skipped postcode
`continue`s past the boundary check exactly as in the Go loop. -/
def stepIndex (fetch : String → PostcodeResult) (filename : String) (startJ : Nat)
    (postcodes : List String) (st : RunState) (j : Nat) : RunState :=
  let pc := postcodes.getD j ""
  let st := { st with considered := st.considered ++ [pc] }
  if st.skip.contains pc then st
  else
    let r := fetch pc
    let st := { st with lookedUp := st.lookedUp ++ [pc], pending := st.pending ++ [r] }
    let st := updateProgressForRecord filename pc j startJ st
    if j % maxGoroutines == maxGoroutines - 1 || j == postcodes.length - 1 then
      collectBatch st
    else st

/-- The resume index inside one file (main.go lines 154 to 165): when the
file is the recorded last file and a last postcode is recorded, resume at
the index after its first occurrence; otherwise (or when it does not
occur) start at 0. -/
def resumeIdxInFile (postcodes : List String) (p : Progress) (filename : String) : Nat :=
  if filename == p.lastFile && p.lastPostcode != "" then
    match postcodes.findIdx? (fun pc => pc == p.lastPostcode) with
    | some j => j + 1
    | none => 0
  else 0

/-- Processing of one file (main.go lines 142 to 245): compute the resume
index, run the inner loop over the remaining indices with fresh channels,
flush the results file unconditionally, and, when the file is not the last
one, clear `lastPostcode` and persist the ledger. -/
def processFile (fetch : String → PostcodeResult) (isLast : Bool)
    (filename : String) (postcodes : List String) (st : RunState) : RunState :=
  let startJ := resumeIdxInFile postcodes st.progress filename
  let st := { st with pending := [] }
  let st := (List.range' startJ (postcodes.length - startJ)).foldl
      (fun s j => stepIndex fetch filename startJ postcodes s j) st
  let st := { st with flushes := st.flushes ++ [(st.results.length, true)] }
  if isLast then st
  else
    let p : Progress := { st.progress with lastPostcode := "" }
    { st with progress := p, progressSaves := st.progressSaves ++ [p] }

/-- The file loop of `main` from the resume file onward: each file except
the final one of the whole (sorted) list is non-last. -/
def processFiles (fetch : String → PostcodeResult) :
    List (String × List String) → RunState → RunState
  | [], st => st
  | [f], st => processFile fetch true f.1 f.2 st
  | f :: g :: rest, st => processFiles fetch (g :: rest) (processFile fetch false f.1 f.2 st)

/-- The resume file index (main.go lines 127 to 136): the first file whose
base name equals the recorded `lastFile`, or 0 when none is recorded or
none matches. -/
def startFileIdx (files : List (String × List String)) (p : Progress) : Nat :=
  if p.lastFile != "" then
    match files.findIdx? (fun f => f.1 == p.lastFile) with
    | some i => i
    | none => 0
  else 0

/-- All postcodes of a corpus in file order. -/
def allPostcodes (files : List (String × List String)) : List String :=
  (files.map Prod.snd).flatten

/-- One whole run of `main` (main.go lines 99 to 255), sequentialized in
goroutine dispatch order.  `files` is the corpus after glob and sort, as
(base name, postcode list) pairs; `fetch` is the per-postcode result of
`getSupplierForPostcodeWithRetries`; `existing` is the loaded result
store, which seeds both the in-memory results and the skip-set.  The final
step marks the ledger completed and persists it. -/
def runPipeline (fetch : String → PostcodeResult) (files : List (String × List String))
    (progress0 : Progress) (existing : List PostcodeResult) : RunState :=
  let st : RunState :=
    { progress := progress0
      results := existing
      skip := existing.map (fun r => r.postcode)
      pending := []
      lookedUp := []
      considered := []
      flushes := []
      progressSaves := [] }
  let st := processFiles fetch (files.drop (startFileIdx files progress0)) st
  let p : Progress := { st.progress with completed := true }
  { st with progress := p, progressSaves := st.progressSaves ++ [p] }

/-- C7: for every HTML fragment passed to the scrape step, each of the
three extracted fields (name, phone, link) independently equals the
captured submatch of its fixed pattern when that pattern matches, and
equals the sentinel "Not Found" when it does not; any subset of the three
patterns may fail without the overall extraction failing (the extraction
is total). -/
theorem c7_extract_fields_independent
    (matchName matchPhone matchLink : String → Option String) (body : String) :
    ((∀ s, matchName body = some s →
        (extractSupplierDetails matchName matchPhone matchLink body).1 = s) ∧
      (matchName body = none →
        (extractSupplierDetails matchName matchPhone matchLink body).1 = "Not Found")) ∧
    ((∀ s, matchPhone body = some s →
        (extractSupplierDetails matchName matchPhone matchLink body).2.1 = s) ∧
      (matchPhone body = none →
        (extractSupplierDetails matchName matchPhone matchLink body).2.1 = "Not Found")) ∧
    ((∀ s, matchLink body = some s →
        (extractSupplierDetails matchName matchPhone matchLink body).2.2 = s) ∧
      (matchLink body = none →
        (extractSupplierDetails matchName matchPhone matchLink body).2.2 = "Not Found")) := by
  refine ⟨⟨fun s h => ?_, fun h => ?_⟩, ⟨fun s h => ?_, fun h => ?_⟩,
    fun s h => ?_, fun h => ?_⟩ <;> simp [extractSupplierDetails, h]

/-- Name matcher used to instantiate C7: always matches. -/
def matchNameW : String → Option String := fun _ => some "Thames Water"

/-- Phone matcher used to instantiate C7: never matches. -/
def matchPhoneW : String → Option String := fun _ => none

/-- Link matcher used to instantiate C7: always matches. -/
def matchLinkW : String → Option String := fun _ => some "https://www.thameswater.co.uk"

/-- Witness for C7 at a concrete mixed instance: name and link extracted,
phone defaulted, in one and the same extraction. -/
theorem c7_witness :
    (extractSupplierDetails matchNameW matchPhoneW matchLinkW "frag").1 = "Thames Water" ∧
    (extractSupplierDetails matchNameW matchPhoneW matchLinkW "frag").2.1 = "Not Found" ∧
    (extractSupplierDetails matchNameW matchPhoneW matchLinkW "frag").2.2 =
      "https://www.thameswater.co.uk" :=
  ⟨(c7_extract_fields_independent matchNameW matchPhoneW matchLinkW "frag").1.1 _ rfl,
   (c7_extract_fields_independent matchNameW matchPhoneW matchLinkW "frag").2.1.2 rfl,
   (c7_extract_fields_independent matchNameW matchPhoneW matchLinkW "frag").2.2.1 _ rfl⟩

/-- C10: every response body that parses as a JSON array of fewer than 3
envelope objects makes `getSupplierForPostcode` panic on the unchecked
index 2 instead of returning a record or an error. -/
theorem c10_short_envelope_panics (pc : String) (datas : List String)
    (matchName matchPhone matchLink : String → Option String)
    (h : datas.length < 3) :
    getSupplierForPostcode pc (.response 200 (.envelopes datas))
      matchName matchPhone matchLink = .panicked := by
  have h2 : datas[2]? = none := List.getElem?_eq_none (by omega)
  simp [getSupplierForPostcode, h2]

/-- Matcher used to instantiate C10: never matches. -/
def matchNoneC10 : String → Option String := fun _ => none

/-- Witness for C10 at the empty envelope array. -/
theorem c10_witness :
    getSupplierForPostcode "AB1 2CD" (.response 200 (.envelopes []))
      matchNoneC10 matchNoneC10 matchNoneC10 = .panicked :=
  c10_short_envelope_panics "AB1 2CD" [] matchNoneC10 matchNoneC10 matchNoneC10 (by decide)

/-- C4 counterexample: a results-file checkpoint write failure is not
merely logged, it terminates the process through `log.Fatalf`. -/
theorem c4_counterexample : saveResultsToJSON true false = .fatalExit := rfl

/-- C4 amended: a progress-file checkpoint write failure is queued, logged
by the batch-boundary drain and never halts the loop; but a results-file
checkpoint write failure (or marshal failure) terminates the process via
`log.Fatalf`, and only a fully successful results write returns. -/
theorem c4_amended :
    (∀ queued : List String, (drainErrorsChan queued).2 = .proceed) ∧
    (∀ marshalOk writeOk : Bool, (marshalOk = false ∨ writeOk = false) →
      saveResultsToJSON marshalOk writeOk = .fatalExit) ∧
    saveResultsToJSON true true = .saved := by
  refine ⟨fun queued => ?_, fun marshalOk writeOk h => ?_, rfl⟩
  · cases queued <;> rfl
  · rcases h with h | h
    · subst h; rfl
    · subst h; cases marshalOk <;> rfl

/-- Witness for C4 amended at concrete inputs. -/
theorem c4_witness :
    (drainErrorsChan ["error saving progress for postcode SW1A 1AA"]).2 = .proceed ∧
    saveResultsToJSON true false = .fatalExit ∧
    saveResultsToJSON true true = .saved :=
  ⟨c4_amended.1 ["error saving progress for postcode SW1A 1AA"],
   c4_amended.2.1 true false (Or.inr rfl), c4_amended.2.2⟩

/-- Matcher used to instantiate C2: never matches. -/
def matchNoneC2 : String → Option String := fun _ => none

/-- Attempt oracle used to refute C2: attempt 0 fails at the transport
level; every later attempt would return a fully resolved record. -/
def attemptsC2 : Nat → LookupOutcome := fun i =>
  if i == 0 then getSupplierForPostcode "E1 6AN" .transportError matchNoneC2 matchNoneC2 matchNoneC2
  else .ok ⟨"E1 6AN", "Thames Water", "0800 316 9800", "https://www.thameswater.co.uk"⟩

/-- C2 counterexample: a transport-level failure produces a record with an
empty supplier, which the retry wrapper treats as success: it returns that
record from attempt 1 immediately, although a single retry would have
obtained "Thames Water".  The claim that such an attempt is treated as a
found-nothing result and retried is false. -/
theorem c2_counterexample :
    getSupplierForPostcode "E1 6AN" .transportError matchNoneC2 matchNoneC2 matchNoneC2 =
      .ok ⟨"E1 6AN", "", "", ""⟩ ∧
    attemptsC2 1 = .ok ⟨"E1 6AN", "Thames Water", "0800 316 9800", "https://www.thameswater.co.uk"⟩ ∧
    getSupplierForPostcodeWithRetries attemptsC2 maxRetries = .ok ⟨"E1 6AN", "", "", ""⟩ := by
  refine ⟨rfl, rfl, ?_⟩
  decide

/-- The retry loop on a stretch of attempts that all carry the sentinel
supplier: it consumes every attempt and ends on the last obtained record. -/
theorem retriesAux_all_not_found (attempt : Nat → LookupOutcome) :
    ∀ (k i : Nat) (last : PostcodeResult),
      (∀ m, m ≤ k → ∃ r, attempt (i + m) = .ok r ∧ r.supplier = "Not Found") →
      retriesAux attempt (k + 1) i last = attempt (i + k) := by
  intro k
  induction k with
  | zero =>
    intro i last hall
    obtain ⟨r, hr, hs⟩ := hall 0 (by omega)
    rw [Nat.add_zero] at hr
    simp [retriesAux, hr, hs]
  | succ k ih =>
    intro i last hall
    obtain ⟨r, hr, hs⟩ := hall 0 (by omega)
    rw [Nat.add_zero] at hr
    have step : retriesAux attempt (k + 1 + 1) i last = retriesAux attempt (k + 1) (i + 1) r := by
      simp [retriesAux, hr, hs]
    rw [step, ih (i + 1) r (fun m hm => by
      obtain ⟨r', hr', hs'⟩ := hall (m + 1) (by omega)
      exact ⟨r', by rwa [show i + (m + 1) = i + 1 + m by omega] at hr', hs'⟩)]
    congr 1
    omega

/-- C2 amended: the retry wrapper never surfaces an error (absent a
panic it always returns a record).  It waits and retries only attempts
whose record carries the sentinel supplier "Not Found" (a scrape miss on a
parseable response); after exhausting all attempts with the sentinel it
returns the last obtained record.  But an attempt that fails at the
transport, HTTP-status or parse level yields a record with an empty
supplier, which the wrapper treats as success and returns immediately
without retrying. -/
theorem c2_amended :
    (∀ (attempt : Nat → LookupOutcome) (n : Nat) (r : PostcodeResult),
      0 < n → attempt 0 = .ok r → r.supplier ≠ "Not Found" →
      getSupplierForPostcodeWithRetries attempt n = .ok r) ∧
    (∀ (attempt : Nat → LookupOutcome) (n : Nat),
      0 < n →
      (∀ i, i < n → ∃ r, attempt i = .ok r ∧ r.supplier = "Not Found") →
      getSupplierForPostcodeWithRetries attempt n = attempt (n - 1)) := by
  constructor
  · intro attempt n r hn h0 hr
    obtain ⟨m, rfl⟩ : ∃ m, n = m + 1 := ⟨n - 1, by omega⟩
    simp [getSupplierForPostcodeWithRetries, retriesAux, h0, bne_iff_ne.mpr hr]
  · intro attempt n hn hall
    obtain ⟨m, rfl⟩ : ∃ m, n = m + 1 := ⟨n - 1, by omega⟩
    rw [getSupplierForPostcodeWithRetries,
      retriesAux_all_not_found attempt m 0 ⟨"", "", "", ""⟩
        (fun k hk => by simpa using hall k (by omega))]
    simp

/-- Attempt oracle for the C2 witness: a transport failure on attempt 0
(empty supplier, returned at once by part 1 of the amended claim). -/
def attemptsC2W1 : Nat → LookupOutcome := fun _ => .ok ⟨"N1 9GU", "", "", ""⟩

/-- Attempt oracle for the C2 witness: every attempt is a scrape miss. -/
def attemptsC2W2 : Nat → LookupOutcome := fun i =>
  .ok ⟨"N1 9GU", "Not Found", "Not Found", if i == 2 then "last" else "earlier"⟩

/-- Witness for C2 amended at concrete attempt sequences. -/
theorem c2_witness :
    getSupplierForPostcodeWithRetries attemptsC2W1 maxRetries = .ok ⟨"N1 9GU", "", "", ""⟩ ∧
    getSupplierForPostcodeWithRetries attemptsC2W2 maxRetries =
      .ok ⟨"N1 9GU", "Not Found", "Not Found", "last"⟩ :=
  ⟨c2_amended.1 attemptsC2W1 maxRetries ⟨"N1 9GU", "", "", ""⟩ (by decide) rfl (by decide),
   by
    have h := c2_amended.2 attemptsC2W2 maxRetries (by decide)
      (fun i _ => ⟨⟨"N1 9GU", "Not Found", "Not Found", if i == 2 then "last" else "earlier"⟩,
        rfl, rfl⟩)
    simpa using h⟩

/-- `commitRecord` only touches the committed results and the skip-set;
the skip-set only grows. -/
theorem commitRecord_fields (st : RunState) (r : PostcodeResult) :
    (commitRecord st r).progress = st.progress ∧
    (commitRecord st r).progressSaves = st.progressSaves ∧
    (commitRecord st r).lookedUp = st.lookedUp ∧
    (commitRecord st r).considered = st.considered ∧
    (commitRecord st r).flushes = st.flushes ∧
    (commitRecord st r).pending = st.pending ∧
    (∀ q ∈ st.skip, q ∈ (commitRecord st r).skip) := by
  unfold commitRecord
  split
  · exact ⟨rfl, rfl, rfl, rfl, rfl, rfl, fun q hq => List.mem_append_left _ hq⟩
  · exact ⟨rfl, rfl, rfl, rfl, rfl, rfl, fun q hq => hq⟩

/-- Folding a whole batch with `commitRecord` preserves the same fields. -/
theorem foldl_commitRecord_fields (l : List PostcodeResult) :
    ∀ st : RunState,
      (l.foldl commitRecord st).progress = st.progress ∧
      (l.foldl commitRecord st).progressSaves = st.progressSaves ∧
      (l.foldl commitRecord st).lookedUp = st.lookedUp ∧
      (l.foldl commitRecord st).considered = st.considered ∧
      (l.foldl commitRecord st).flushes = st.flushes ∧
      (∀ q ∈ st.skip, q ∈ (l.foldl commitRecord st).skip) := by
  induction l with
  | nil => intro st; exact ⟨rfl, rfl, rfl, rfl, rfl, fun q hq => hq⟩
  | cons r t ih =>
    intro st
    have h1 := commitRecord_fields st r
    have h2 := ih (commitRecord st r)
    refine ⟨?_, ?_, ?_, ?_, ?_, ?_⟩ <;>
      simp only [List.foldl_cons]
    · rw [h2.1, h1.1]
    · rw [h2.2.1, h1.2.1]
    · rw [h2.2.2.1, h1.2.2.1]
    · rw [h2.2.2.2.1, h1.2.2.2.1]
    · rw [h2.2.2.2.2.1, h1.2.2.2.2.1]
    · exact fun q hq => h2.2.2.2.2.2 q (h1.2.2.2.2.2.2 q hq)

/-- The batch collection leaves the ledger, the event logs other than
flushes, and the membership of the skip-set intact, and empties the
pending channel. -/
theorem collectBatch_fields (st : RunState) :
    (collectBatch st).progress = st.progress ∧
    (collectBatch st).progressSaves = st.progressSaves ∧
    (collectBatch st).lookedUp = st.lookedUp ∧
    (collectBatch st).considered = st.considered ∧
    (∀ q ∈ st.skip, q ∈ (collectBatch st).skip) ∧
    (collectBatch st).pending = [] := by
  have h := foldl_commitRecord_fields st.pending st
  simp only [collectBatch]
  split <;>
    exact ⟨h.1, h.2.1, h.2.2.1, h.2.2.2.1, fun q hq => h.2.2.2.2.2 q hq, trivial⟩

/-- The goroutine progress update touches only the ledger and its
persistence log. -/
theorem updateProgressForRecord_fields (fn pc : String) (idx startJ : Nat) (st : RunState) :
    (updateProgressForRecord fn pc idx startJ st).skip = st.skip ∧
    (updateProgressForRecord fn pc idx startJ st).lookedUp = st.lookedUp ∧
    (updateProgressForRecord fn pc idx startJ st).considered = st.considered ∧
    (updateProgressForRecord fn pc idx startJ st).flushes = st.flushes ∧
    (updateProgressForRecord fn pc idx startJ st).pending = st.pending ∧
    (updateProgressForRecord fn pc idx startJ st).results = st.results := by
  unfold updateProgressForRecord
  split <;> exact ⟨rfl, rfl, rfl, rfl, rfl, rfl⟩

/-- The goroutine progress update characterized: the ledger is rewritten
and persisted exactly when the index exceeds the file's resume start. -/
theorem updateProgressForRecord_progress (fn pc : String) (idx startJ : Nat) (st : RunState) :
    (updateProgressForRecord fn pc idx startJ st).progress =
      (if idx > startJ then (⟨fn, pc, st.progress.completed⟩ : Progress) else st.progress) ∧
    (updateProgressForRecord fn pc idx startJ st).progressSaves =
      (if idx > startJ then st.progressSaves ++ [⟨fn, pc, st.progress.completed⟩]
       else st.progressSaves) := by
  unfold updateProgressForRecord
  split <;> simp_all

/-- C1 amended: for a record dispatched (not skipped) at index `j` of the
file, the Batch Scheduler overwrites `ProgressState.lastPostcode` with
that postcode and persists the ledger exactly when `j` exceeds the file's
resume start index, regardless of the record's supplier value; for an
all-"Not Found" postcode at such an index the ledger is still set to it. -/
theorem c1_amended (fetch : String → PostcodeResult) (filename : String)
    (startJ : Nat) (postcodes : List String) (st : RunState) (j : Nat)
    (hns : st.skip.contains (postcodes.getD j "") = false) :
    (j > startJ →
      (stepIndex fetch filename startJ postcodes st j).progress =
        ⟨filename, postcodes.getD j "", st.progress.completed⟩ ∧
      (stepIndex fetch filename startJ postcodes st j).progressSaves =
        st.progressSaves ++ [⟨filename, postcodes.getD j "", st.progress.completed⟩]) ∧
    (j ≤ startJ →
      (stepIndex fetch filename startJ postcodes st j).progress = st.progress ∧
      (stepIndex fetch filename startJ postcodes st j).progressSaves = st.progressSaves) := by
  constructor
  · intro hj
    simp only [stepIndex, hns, Bool.false_eq_true, if_false, updateProgressForRecord, hj, if_true]
    split
    · exact ⟨(collectBatch_fields _).1, (collectBatch_fields _).2.1⟩
    · exact ⟨rfl, rfl⟩
  · intro hj
    have hnj : ¬ j > startJ := by omega
    simp only [stepIndex, hns, Bool.false_eq_true, if_false, updateProgressForRecord, hnj]
    split
    · exact ⟨(collectBatch_fields _).1, (collectBatch_fields _).2.1⟩
    · exact ⟨rfl, rfl⟩

/-- Fetch oracle used to refute C1: "P0" resolves, "P1" never does. -/
def fetchC1 : String → PostcodeResult := fun pc =>
  if pc == "P0" then ⟨"P0", "Severn Trent", "0345 750 0500", "https://www.stwater.co.uk"⟩
  else ⟨pc, "Not Found", "Not Found", "Not Found"⟩

/-- Attempt oracle for "P1" under `fetchC1`: every retry attempt is a
scrape miss carrying the sentinel in every field. -/
def attemptsC1 : Nat → LookupOutcome :=
  fun _ => .ok ⟨"P1", "Not Found", "Not Found", "Not Found"⟩

/-- C1 counterexample: "P1" sits at index 1 of its file while the resume
start is 0; all `maxRetries` attempts for it carry "Not Found" (conjuncts
one to three), the retry wrapper hands the scheduler exactly the record
`fetchC1 "P1"` (conjunct four), and the run still finishes with
`lastPostcode = "P1"` (conjunct five) — the ledger is advanced to a
postcode that was never committed, refuting the claim that the supplier
must differ from "Not Found" for `lastPostcode` to be updated. -/
theorem c1_counterexample :
    attemptsC1 0 = .ok ⟨"P1", "Not Found", "Not Found", "Not Found"⟩ ∧
    attemptsC1 1 = .ok ⟨"P1", "Not Found", "Not Found", "Not Found"⟩ ∧
    attemptsC1 2 = .ok ⟨"P1", "Not Found", "Not Found", "Not Found"⟩ ∧
    getSupplierForPostcodeWithRetries attemptsC1 maxRetries = .ok (fetchC1 "P1") ∧
    (runPipeline fetchC1 [("a.csv", ["P0", "P1"])] ⟨"", "", false⟩ []).progress.lastPostcode
      = "P1" := by
  refine ⟨rfl, rfl, rfl, by decide, by decide⟩

/-- The run state at the dispatch of index 1 in the C1 witness scenario. -/
def stC1W : RunState :=
  { progress := ⟨"", "", false⟩
    results := []
    skip := []
    pending := [fetchC1 "P0"]
    lookedUp := ["P0"]
    considered := ["P0"]
    flushes := []
    progressSaves := [] }

/-- Witness for C1 amended: at index 1 past resume start 0, the dispatched
all-"Not Found" record still rewrites the ledger to "P1". -/
theorem c1_witness :
    (stepIndex fetchC1 "a.csv" 0 ["P0", "P1"] stC1W 1).progress = ⟨"a.csv", "P1", false⟩ ∧
    (stepIndex fetchC1 "a.csv" 0 ["P0", "P1"] stC1W 1).progressSaves =
      [⟨"a.csv", "P1", false⟩] :=
  (c1_amended fetchC1 "a.csv" 0 ["P0", "P1"] stC1W 1 (by decide)).1 (by decide)

/-- Membership reading of the Go skip-set check `processedPostcodes[pc]`. -/
theorem skip_contains_iff (l : List String) (a : String) :
    l.contains a = true ↔ a ∈ l := by
  simp [List.contains, List.elem_iff]

/-- The run invariant behind C5 and C3: every postcode of `S` (the keys of
the loaded result store) stays in the skip-set, and no postcode of `S` is
ever passed to the lookup client. -/
def LookInv (S : List String) (st : RunState) : Prop :=
  (∀ q ∈ S, q ∈ st.skip) ∧ (∀ q ∈ st.lookedUp, q ∉ S)

/-- One inner-loop iteration preserves the skip-set invariant: a skipped
postcode changes nothing relevant, and a dispatched one was absent from
the skip-set, hence outside `S`. -/
theorem stepIndex_lookInv (S : List String) (fetch : String → PostcodeResult)
    (fn : String) (startJ : Nat) (postcodes : List String) (st : RunState) (j : Nat)
    (h : LookInv S st) : LookInv S (stepIndex fetch fn startJ postcodes st j) := by
  obtain ⟨hskip, hlook⟩ := h
  simp only [stepIndex]
  split
  · exact ⟨hskip, hlook⟩
  · rename_i hc
    have hpc : postcodes.getD j "" ∉ st.skip := fun hmem =>
      hc ((skip_contains_iff st.skip (postcodes.getD j "")).mpr hmem)
    have hupd := updateProgressForRecord_fields fn (postcodes.getD j "") j startJ
      { st with
        lookedUp := st.lookedUp ++ [postcodes.getD j ""],
        pending := st.pending ++ [fetch (postcodes.getD j "")],
        considered := st.considered ++ [postcodes.getD j ""] }
    have hmid : LookInv S (updateProgressForRecord fn (postcodes.getD j "") j startJ
        { st with
          lookedUp := st.lookedUp ++ [postcodes.getD j ""],
          pending := st.pending ++ [fetch (postcodes.getD j "")],
          considered := st.considered ++ [postcodes.getD j ""] }) := by
      constructor
      · intro q hq
        rw [hupd.1]
        exact hskip q hq
      · intro q hq
        rw [hupd.2.1] at hq
        rcases List.mem_append.mp hq with hq | hq
        · exact hlook q hq
        · have hq' : q = postcodes.getD j "" := List.mem_singleton.mp hq
          intro hqS
          exact hpc (hq' ▸ hskip q hqS)
    split
    · rename_i hb
      refine ⟨fun q hq => (collectBatch_fields _).2.2.2.2.1 q (hmid.1 q hq), fun q hq => ?_⟩
      rw [(collectBatch_fields _).2.2.1] at hq
      exact hmid.2 q hq
    · exact hmid

/-- Unfolding step of the file loop: the head file is last exactly when no
file follows it. -/
theorem processFiles_cons (fetch : String → PostcodeResult)
    (f : String × List String) (fs : List (String × List String)) (st : RunState) :
    processFiles fetch (f :: fs) st =
      processFiles fetch fs (processFile fetch fs.isEmpty f.1 f.2 st) := by
  cases fs <;> rfl

/-- The inner-loop fold preserves the skip-set invariant. -/
theorem foldl_stepIndex_lookInv (S : List String) (fetch : String → PostcodeResult)
    (fn : String) (startJ : Nat) (pcs : List String) (l : List Nat) :
    ∀ st : RunState, LookInv S st →
      LookInv S (l.foldl (fun s j => stepIndex fetch fn startJ pcs s j) st) := by
  induction l with
  | nil => intro st h; exact h
  | cons a t ih =>
    intro st h
    exact ih _ (stepIndex_lookInv S fetch fn startJ pcs st a h)

/-- Processing one file preserves the skip-set invariant. -/
theorem processFile_lookInv (S : List String) (fetch : String → PostcodeResult)
    (isLast : Bool) (fn : String) (pcs : List String) (st : RunState)
    (h : LookInv S st) : LookInv S (processFile fetch isLast fn pcs st) := by
  have h2 := foldl_stepIndex_lookInv S fetch fn (resumeIdxInFile pcs st.progress fn) pcs
    (List.range' (resumeIdxInFile pcs st.progress fn)
      (pcs.length - resumeIdxInFile pcs st.progress fn))
    ({ st with pending := [] }) h
  simp only [processFile]
  cases isLast
  · exact h2
  · exact h2

/-- The file loop preserves the skip-set invariant. -/
theorem processFiles_lookInv (S : List String) (fetch : String → PostcodeResult) :
    ∀ (fs : List (String × List String)) (st : RunState),
      LookInv S st → LookInv S (processFiles fetch fs st) := by
  intro fs
  induction fs with
  | nil => intro st h; exact h
  | cons f t ih =>
    intro st h
    rw [processFiles_cons]
    exact ih _ (processFile_lookInv S fetch t.isEmpty f.1 f.2 st h)

/-- The whole run maintains the skip-set invariant for the postcodes of
the loaded result store. -/
theorem runPipeline_lookInv (fetch : String → PostcodeResult)
    (files : List (String × List String)) (progress0 : Progress)
    (existing : List PostcodeResult) :
    LookInv (existing.map (fun r => r.postcode))
      (runPipeline fetch files progress0 existing) := by
  have h0 : LookInv (existing.map (fun r => r.postcode))
      { progress := progress0, results := existing,
        skip := existing.map (fun r => r.postcode), pending := [],
        lookedUp := [], considered := [], flushes := [], progressSaves := [] } :=
    ⟨fun q hq => hq, fun q hq => absurd hq (List.not_mem_nil q)⟩
  exact processFiles_lookInv _ fetch _ _ h0

/-- C5: every postcode present in the skip-set at run start (a key of the
loaded result store) is never passed to the lookup client during that run,
wherever it occurs in the corpus. -/
theorem c5_skip_set_never_queried (fetch : String → PostcodeResult)
    (files : List (String × List String)) (progress0 : Progress)
    (existing : List PostcodeResult) (p : String)
    (hp : p ∈ existing.map (fun r => r.postcode)) :
    p ∉ (runPipeline fetch files progress0 existing).lookedUp :=
  fun hmem => (runPipeline_lookInv fetch files progress0 existing).2 p hmem hp

/-- Fetch oracle used to instantiate C5: every lookup resolves. -/
def fetchC5W : String → PostcodeResult :=
  fun pc => ⟨pc, "Anglian Water", "03457 145 145", "https://www.anglianwater.co.uk"⟩

/-- Witness for C5: "Z1" is in the loaded result store and occurs mid-file
after the resume point, yet is never looked up. -/
theorem c5_witness :
    "Z1" ∉ (runPipeline fetchC5W [("a.csv", ["Z1", "Z2"])] ⟨"", "", false⟩
      [⟨"Z1", "Anglian Water", "03457 145 145", "https://www.anglianwater.co.uk"⟩]).lookedUp :=
  c5_skip_set_never_queried fetchC5W [("a.csv", ["Z1", "Z2"])] ⟨"", "", false⟩
    [⟨"Z1", "Anglian Water", "03457 145 145", "https://www.anglianwater.co.uk"⟩] "Z1"
    (by decide)

/-- A postcode entering the looked-up log during one loop iteration is the
iteration's own postcode. -/
theorem stepIndex_lookedUp_sub (fetch : String → PostcodeResult) (fn : String)
    (startJ : Nat) (pcs : List String) (st : RunState) (j : Nat) :
    ∀ q ∈ (stepIndex fetch fn startJ pcs st j).lookedUp,
      q ∈ st.lookedUp ∨ q = pcs.getD j "" := by
  simp only [stepIndex]
  split
  · exact fun q hq => Or.inl hq
  · have hupd := (updateProgressForRecord_fields fn (pcs.getD j "") j startJ
      { st with
        lookedUp := st.lookedUp ++ [pcs.getD j ""],
        pending := st.pending ++ [fetch (pcs.getD j "")],
        considered := st.considered ++ [pcs.getD j ""] }).2.1
    split
    · intro q hq
      rw [(collectBatch_fields _).2.2.1, hupd] at hq
      rcases List.mem_append.mp hq with h | h
      · exact Or.inl h
      · exact Or.inr (List.mem_singleton.mp h)
    · intro q hq
      rw [hupd] at hq
      rcases List.mem_append.mp hq with h | h
      · exact Or.inl h
      · exact Or.inr (List.mem_singleton.mp h)

/-- Over in-range indices, the inner-loop fold only adds postcodes of the
current file to the looked-up log. -/
theorem foldl_stepIndex_lookedUp_sub (fetch : String → PostcodeResult) (fn : String)
    (startJ : Nat) (pcs : List String) :
    ∀ l : List Nat, (∀ j ∈ l, j < pcs.length) →
      ∀ st : RunState,
        ∀ q ∈ ((l.foldl (fun s j => stepIndex fetch fn startJ pcs s j) st)).lookedUp,
          q ∈ st.lookedUp ∨ q ∈ pcs := by
  intro l
  induction l with
  | nil => intro _ st q hq; exact Or.inl hq
  | cons a t ih =>
    intro hl st q hq
    have ha : a < pcs.length := hl a (List.mem_cons_self a t)
    have ht : ∀ j ∈ t, j < pcs.length := fun j hj => hl j (List.mem_cons_of_mem a hj)
    rcases ih ht _ q hq with h | h
    · rcases stepIndex_lookedUp_sub fetch fn startJ pcs st a q h with h' | h'
      · exact Or.inl h'
      · right
        have hg : pcs.getD a "" = pcs[a] := by
          simp [List.getD_eq_getElem?_getD, List.getElem?_eq_getElem ha]
        rw [h', hg]
        exact List.getElem_mem ha
    · exact Or.inr h

/-- Processing one file only adds that file's postcodes to the looked-up
log. -/
theorem processFile_lookedUp_sub (fetch : String → PostcodeResult) (isLast : Bool)
    (fn : String) (pcs : List String) (st : RunState) :
    ∀ q ∈ (processFile fetch isLast fn pcs st).lookedUp,
      q ∈ st.lookedUp ∨ q ∈ pcs := by
  intro q hq
  have hrange : ∀ j ∈ List.range' (resumeIdxInFile pcs st.progress fn)
      (pcs.length - resumeIdxInFile pcs st.progress fn), j < pcs.length := by
    intro j hj
    have h := List.mem_range'_1.mp hj
    omega
  refine foldl_stepIndex_lookedUp_sub fetch fn (resumeIdxInFile pcs st.progress fn) pcs
    (List.range' (resumeIdxInFile pcs st.progress fn)
      (pcs.length - resumeIdxInFile pcs st.progress fn)) hrange
    ({ st with pending := [] }) q ?_
  simp only [processFile] at hq
  cases isLast
  · exact hq
  · exact hq

/-- Postcodes of a consed corpus. -/
theorem allPostcodes_cons (f : String × List String) (t : List (String × List String)) :
    allPostcodes (f :: t) = f.2 ++ allPostcodes t := by
  simp [allPostcodes]

/-- Postcodes of a concatenated corpus. -/
theorem allPostcodes_append (a b : List (String × List String)) :
    allPostcodes (a ++ b) = allPostcodes a ++ allPostcodes b := by
  simp [allPostcodes]

/-- A postcode of a corpus suffix is a postcode of the corpus. -/
theorem allPostcodes_drop_sub (files : List (String × List String)) (k : Nat) :
    ∀ q ∈ allPostcodes (files.drop k), q ∈ allPostcodes files := by
  intro q hq
  rw [← List.take_append_drop k files, allPostcodes_append]
  exact List.mem_append_right _ hq

/-- The file loop only adds corpus postcodes to the looked-up log. -/
theorem processFiles_lookedUp_sub (fetch : String → PostcodeResult) :
    ∀ (fs : List (String × List String)) (st : RunState),
      ∀ q ∈ (processFiles fetch fs st).lookedUp,
        q ∈ st.lookedUp ∨ q ∈ allPostcodes fs := by
  intro fs
  induction fs with
  | nil => intro st q hq; exact Or.inl hq
  | cons f t ih =>
    intro st q hq
    rw [processFiles_cons] at hq
    rcases ih _ q hq with h | h
    · rcases processFile_lookedUp_sub fetch t.isEmpty f.1 f.2 st q h with h' | h'
      · exact Or.inl h'
      · refine Or.inr ?_
        rw [allPostcodes_cons]
        exact List.mem_append_left _ h'
    · refine Or.inr ?_
      rw [allPostcodes_cons]
      exact List.mem_append_right _ h

/-- C3 amended: when every postcode of the corpus is already a key of the
loaded result store (all lookups of the previous run were committed), the
next run performs zero lookups.  Without that proviso the claim fails: the
`completed` flag is never consulted and uncommitted ("Not Found")
postcodes are re-queried, as the counterexample shows. -/
theorem c3_amended (fetch : String → PostcodeResult)
    (files : List (String × List String)) (progress0 : Progress)
    (existing : List PostcodeResult)
    (hall : ∀ q ∈ allPostcodes files, q ∈ existing.map (fun r => r.postcode)) :
    (runPipeline fetch files progress0 existing).lookedUp = [] := by
  rw [List.eq_nil_iff_forall_not_mem]
  intro q hq
  have h1 := (runPipeline_lookInv fetch files progress0 existing).2 q hq
  have hq' : q ∈ (processFiles fetch (files.drop (startFileIdx files progress0))
      { progress := progress0, results := existing,
        skip := existing.map (fun r => r.postcode), pending := [],
        lookedUp := [], considered := [], flushes := [], progressSaves := [] }).lookedUp := hq
  rcases processFiles_lookedUp_sub fetch _ _ q hq' with h | h
  · exact absurd h (List.not_mem_nil q)
  · exact h1 (hall q (allPostcodes_drop_sub files _ q h))

/-- Fetch oracle used to refute C3: the single postcode never resolves. -/
def fetchC3 : String → PostcodeResult :=
  fun pc => ⟨pc, "Not Found", "Not Found", "Not Found"⟩

/-- Attempt oracle behind `fetchC3`: every retry attempt is a scrape miss. -/
def attemptsC3 : Nat → LookupOutcome :=
  fun _ => .ok ⟨"A1 1AA", "Not Found", "Not Found", "Not Found"⟩

/-- The corpus used to refute C3: one file with one postcode. -/
def corpusC3 : List (String × List String) := [("a.csv", ["A1 1AA"])]

/-- The first C3 run, started from empty state. -/
def runC3first : RunState := runPipeline fetchC3 corpusC3 ⟨"", "", false⟩ []

/-- C3 counterexample: the first run exhausts the corpus (looking up
"A1 1AA", which stays uncommitted since all its attempts are "Not Found")
and persists `completed = true`; the second run on the unchanged corpus,
resumed from exactly the persisted ledger and result store, passes
"A1 1AA" to the lookup client again — not zero lookups.  The `completed`
flag is set at the end of `main` but never read anywhere. -/
theorem c3_counterexample :
    getSupplierForPostcodeWithRetries attemptsC3 maxRetries = .ok (fetchC3 "A1 1AA") ∧
    runC3first.lookedUp = ["A1 1AA"] ∧
    runC3first.progress.completed = true ∧
    runC3first.results = [] ∧
    (runPipeline fetchC3 corpusC3 runC3first.progress runC3first.results).lookedUp
      = ["A1 1AA"] := by
  refine ⟨by decide, by decide, by decide, by decide, by decide⟩

/-- Fetch oracle for the C3 witness (is never invoked in the run). -/
def fetchC3W : String → PostcodeResult :=
  fun pc => ⟨pc, "Yorkshire Water", "0345 1 24 24 24", "https://www.yorkshirewater.com"⟩

/-- Witness for C3 amended: a corpus whose every postcode is already in
the loaded result store yields a run with zero lookups. -/
theorem c3_witness :
    (runPipeline fetchC3W [("a.csv", ["B2 4QA", "B3 1JP"])] ⟨"a.csv", "B3 1JP", true⟩
      [⟨"B2 4QA", "S", "p", "l"⟩, ⟨"B3 1JP", "S", "p", "l"⟩]).lookedUp = [] :=
  c3_amended fetchC3W [("a.csv", ["B2 4QA", "B3 1JP"])] ⟨"a.csv", "B3 1JP", true⟩
    [⟨"B2 4QA", "S", "p", "l"⟩, ⟨"B3 1JP", "S", "p", "l"⟩] (by decide)

/-- Every loop iteration appends exactly its own postcode to the
considered log, skipped or not. -/
theorem stepIndex_considered (fetch : String → PostcodeResult) (fn : String)
    (startJ : Nat) (pcs : List String) (st : RunState) (j : Nat) :
    (stepIndex fetch fn startJ pcs st j).considered =
      st.considered ++ [pcs.getD j ""] := by
  simp only [stepIndex]
  split
  · rfl
  · have hupd := (updateProgressForRecord_fields fn (pcs.getD j "") j startJ
      { st with
        lookedUp := st.lookedUp ++ [pcs.getD j ""],
        pending := st.pending ++ [fetch (pcs.getD j "")],
        considered := st.considered ++ [pcs.getD j ""] }).2.2.1
    split
    · rw [(collectBatch_fields _).2.2.2.1, hupd]
    · rw [hupd]

/-- The inner-loop fold appends the postcodes at the iterated indices to
the considered log. -/
theorem foldl_stepIndex_considered (fetch : String → PostcodeResult) (fn : String)
    (startJ : Nat) (pcs : List String) :
    ∀ (l : List Nat) (st : RunState),
      ((l.foldl (fun s j => stepIndex fetch fn startJ pcs s j) st)).considered =
        st.considered ++ l.map (fun j => pcs.getD j "") := by
  intro l
  induction l with
  | nil => intro st; simp
  | cons a t ih =>
    intro st
    simp only [List.foldl_cons, List.map_cons]
    rw [ih, stepIndex_considered]
    simp

/-- The indices from `s` to the end of the list, read through `getD`, are
the dropped suffix. -/
theorem map_getD_range' :
    ∀ (n : Nat) (pcs : List String) (s : Nat), pcs.length - s = n →
      (List.range' s n).map (fun j => pcs.getD j "") = pcs.drop s := by
  intro n
  induction n with
  | zero =>
    intro pcs s h
    rw [List.drop_eq_nil_of_le (by omega)]
    simp
  | succ k ih =>
    intro pcs s h
    have hs : s < pcs.length := by omega
    rw [List.range'_succ, List.map_cons, ih pcs (s + 1) (by omega),
      List.drop_eq_getElem_cons hs]
    congr 1
    simp [List.getD_eq_getElem?_getD, List.getElem?_eq_getElem hs]

/-- With no recorded last postcode, a file is processed from index 0. -/
theorem resumeIdx_of_empty (pcs : List String) (p : Progress) (fn : String)
    (h : p.lastPostcode = "") : resumeIdxInFile pcs p fn = 0 := by
  simp [resumeIdxInFile, h]

/-- With a recorded last file and postcode present in the file, processing
resumes right after the first occurrence of the recorded postcode. -/
theorem resumeIdx_of_found (pcs : List String) (p : Progress) (fn : String) (j : Nat)
    (hfn : (fn == p.lastFile) = true) (hne : p.lastPostcode ≠ "")
    (hfind : pcs.findIdx? (fun pc => pc == p.lastPostcode) = some j) :
    resumeIdxInFile pcs p fn = j + 1 := by
  simp [resumeIdxInFile, hfn, bne_iff_ne.mpr hne, hfind]

/-- A non-last file always leaves the ledger with an empty last postcode. -/
theorem processFile_not_last_lastPostcode (fetch : String → PostcodeResult)
    (fn : String) (pcs : List String) (st : RunState) :
    (processFile fetch false fn pcs st).progress.lastPostcode = "" := by
  simp [processFile]

/-- One file contributes exactly its postcode suffix from the resume
index onward to the considered log. -/
theorem processFile_considered (fetch : String → PostcodeResult) (isLast : Bool)
    (fn : String) (pcs : List String) (st : RunState) :
    (processFile fetch isLast fn pcs st).considered =
      st.considered ++ pcs.drop (resumeIdxInFile pcs st.progress fn) := by
  have hfold := foldl_stepIndex_considered fetch fn (resumeIdxInFile pcs st.progress fn) pcs
    (List.range' (resumeIdxInFile pcs st.progress fn)
      (pcs.length - resumeIdxInFile pcs st.progress fn))
    ({ st with pending := [] })
  have hmap := map_getD_range' (pcs.length - resumeIdxInFile pcs st.progress fn) pcs
    (resumeIdxInFile pcs st.progress fn) rfl
  rw [hmap] at hfold
  cases isLast <;> simp [processFile, hfold]

/-- From a state with an empty recorded last postcode, the file loop
considers every postcode of every remaining file, in order. -/
theorem processFiles_considered_of_empty (fetch : String → PostcodeResult) :
    ∀ (fs : List (String × List String)) (st : RunState),
      st.progress.lastPostcode = "" →
      (processFiles fetch fs st).considered = st.considered ++ allPostcodes fs := by
  intro fs
  induction fs with
  | nil =>
    intro st _
    simp [processFiles, allPostcodes]
  | cons f t ih =>
    intro st h
    rw [processFiles_cons]
    cases t with
    | nil =>
      rw [show (([] : List (String × List String)).isEmpty) = true from rfl]
      show (processFile fetch true f.1 f.2 st).considered = _
      rw [processFile_considered, resumeIdx_of_empty f.2 st.progress f.1 h]
      simp [allPostcodes]
    | cons g r =>
      rw [show ((g :: r).isEmpty) = false from rfl]
      rw [ih _ (processFile_not_last_lastPostcode fetch f.1 f.2 st)]
      rw [processFile_considered, resumeIdx_of_empty f.2 st.progress f.1 h]
      simp [allPostcodes_cons]

/-- C6: from a persisted ledger naming file `F` (first match at index `i`
of the sorted corpus) and postcode `X` (first occurrence at index `j` of
that file), the run's considered sequence is exactly the postcodes of `F`
strictly after `X`, followed by all postcodes of the later files: the next
unit of work is the postcode immediately following `X` (or the first
postcode of the next file when `X` is last), and no position at or before
`X` in `F`, nor any earlier file, is ever reprocessed. -/
theorem c6_resume_correctness (fetch : String → PostcodeResult)
    (files : List (String × List String)) (F X : String) (c : Bool)
    (existing : List PostcodeResult) (i j : Nat)
    (hF : F ≠ "") (hX : X ≠ "")
    (hfind : files.findIdx? (fun f => f.1 == F) = some i)
    (hpc : (files.getD i ("", [])).2.findIdx? (fun pc => pc == X) = some j) :
    (runPipeline fetch files ⟨F, X, c⟩ existing).considered =
      (files.getD i ("", [])).2.drop (j + 1) ++ allPostcodes (files.drop (i + 1)) := by
  obtain ⟨hi, hpi, -⟩ := List.findIdx?_eq_some_iff_getElem.mp hfind
  have hgetD : files.getD i ("", []) = files[i] := by
    simp [List.getD_eq_getElem?_getD, List.getElem?_eq_getElem hi]
  have hstart : startFileIdx files ⟨F, X, c⟩ = i := by
    simp [startFileIdx, bne_iff_ne.mpr hF, hfind]
  have hdrop : files.drop i = files.getD i ("", []) :: files.drop (i + 1) := by
    rw [List.drop_eq_getElem_cons hi, hgetD]
  have hfn : ((files.getD i ("", [])).1 == (⟨F, X, c⟩ : Progress).lastFile) = true := by
    rw [hgetD]; exact hpi
  have hresume :
      resumeIdxInFile (files.getD i ("", [])).2 ⟨F, X, c⟩ (files.getD i ("", [])).1 = j + 1 :=
    resumeIdx_of_found _ _ _ j hfn hX hpc
  simp only [List.getD_eq_getElem?_getD] at hresume
  simp only [runPipeline, hstart]
  rw [hdrop, processFiles_cons]
  rcases hrest : files.drop (i + 1) with _ | ⟨g, r⟩
  · simp only [processFiles, List.isEmpty_nil]
    rw [processFile_considered]
    simp [hresume, allPostcodes]
  · simp only [List.isEmpty_cons]
    rw [processFiles_considered_of_empty fetch (g :: r) _
      (processFile_not_last_lastPostcode fetch _ _ _)]
    rw [processFile_considered]
    simp [hresume]

/-- Fetch oracle used to instantiate C6. -/
def fetchC6W : String → PostcodeResult :=
  fun pc => ⟨pc, "United Utilities", "0345 672 3723", "https://www.unitedutilities.com"⟩

/-- Witness for C6: resuming at file "a.csv", postcode "P2" (index 1 of
3), the run considers exactly "P3" and then "Q1" of the next file. -/
theorem c6_witness :
    (runPipeline fetchC6W [("a.csv", ["P1", "P2", "P3"]), ("b.csv", ["Q1"])]
      ⟨"a.csv", "P2", false⟩ []).considered = ["P3", "Q1"] :=
  (c6_resume_correctness fetchC6W [("a.csv", ["P1", "P2", "P3"]), ("b.csv", ["Q1"])]
    "a.csv" "P2" false [] 0 1 (by decide) (by decide) (by decide) (by decide)).trans
    (by decide)

/-- The flush-size invariant behind C8: every mid-file (non end-of-file)
flush happens at a collection size divisible by 10. -/
def FlushTagInv (st : RunState) : Prop :=
  ∀ e ∈ st.flushes, e.2 = false → e.1 % 10 = 0

/-- The batch collection preserves the flush-size invariant: it flushes
mid-file only when the collection size is divisible by 10. -/
theorem collectBatch_flushTag (st : RunState) (h : FlushTagInv st) :
    FlushTagInv (collectBatch st) := by
  have hfl := (foldl_commitRecord_fields st.pending st).2.2.2.2.1
  simp only [collectBatch]
  split
  · rename_i hc
    intro e he hf
    rcases List.mem_append.mp he with h1 | h1
    · rw [hfl] at h1
      exact h e h1 hf
    · rw [List.mem_singleton.mp h1]
      exact beq_iff_eq.mp hc
  · intro e he hf
    rw [hfl] at he
    exact h e he hf

/-- One loop iteration preserves the flush-size invariant. -/
theorem stepIndex_flushTag (fetch : String → PostcodeResult) (fn : String)
    (startJ : Nat) (pcs : List String) (st : RunState) (j : Nat)
    (h : FlushTagInv st) : FlushTagInv (stepIndex fetch fn startJ pcs st j) := by
  simp only [stepIndex]
  split
  · exact h
  · have hupd := (updateProgressForRecord_fields fn (pcs.getD j "") j startJ
      { st with
        lookedUp := st.lookedUp ++ [pcs.getD j ""],
        pending := st.pending ++ [fetch (pcs.getD j "")],
        considered := st.considered ++ [pcs.getD j ""] }).2.2.2.1
    split
    · refine collectBatch_flushTag _ ?_
      intro e he hf
      rw [hupd] at he
      exact h e he hf
    · intro e he hf
      rw [hupd] at he
      exact h e he hf

/-- The inner-loop fold preserves the flush-size invariant. -/
theorem foldl_stepIndex_flushTag (fetch : String → PostcodeResult) (fn : String)
    (startJ : Nat) (pcs : List String) (l : List Nat) :
    ∀ st : RunState, FlushTagInv st →
      FlushTagInv (l.foldl (fun s j => stepIndex fetch fn startJ pcs s j) st) := by
  induction l with
  | nil => intro st h; exact h
  | cons a t ih =>
    intro st h
    exact ih _ (stepIndex_flushTag fetch fn startJ pcs st a h)

/-- Processing a file preserves the flush-size invariant: its own
unconditional flush carries the end-of-file tag. -/
theorem processFile_flushTag (fetch : String → PostcodeResult) (isLast : Bool)
    (fn : String) (pcs : List String) (st : RunState)
    (h : FlushTagInv st) : FlushTagInv (processFile fetch isLast fn pcs st) := by
  have hfold := foldl_stepIndex_flushTag fetch fn (resumeIdxInFile pcs st.progress fn) pcs
    (List.range' (resumeIdxInFile pcs st.progress fn)
      (pcs.length - resumeIdxInFile pcs st.progress fn))
    ({ st with pending := [] }) h
  simp only [processFile]
  cases isLast <;>
  · intro e he hf
    rcases List.mem_append.mp he with h1 | h1
    · exact hfold e h1 hf
    · rw [List.mem_singleton.mp h1] at hf
      simp at hf

/-- The file loop preserves the flush-size invariant. -/
theorem processFiles_flushTag (fetch : String → PostcodeResult) :
    ∀ (fs : List (String × List String)) (st : RunState),
      FlushTagInv st → FlushTagInv (processFiles fetch fs st) := by
  intro fs
  induction fs with
  | nil => intro st h; exact h
  | cons f t ih =>
    intro st h
    rw [processFiles_cons]
    exact ih _ (processFile_flushTag fetch t.isEmpty f.1 f.2 st h)

/-- Every file ends with an unconditional flush of the full collection:
the last flush recorded by `processFile` carries the final collection size
and the end-of-file tag. -/
theorem processFile_last_flush (fetch : String → PostcodeResult) (isLast : Bool)
    (fn : String) (pcs : List String) (st : RunState) :
    ((processFile fetch isLast fn pcs st).flushes).getLast? =
      some ((processFile fetch isLast fn pcs st).results.length, true) := by
  simp only [processFile]
  cases isLast <;> simp [List.getLast?_concat]

/-- C8 amended: the committed collection is flushed mid-file at a batch
collection boundary exactly when the cumulative collection size (counting
the preloaded results) is then divisible by 10 — which can skip past the
10th record when a batch straddles a multiple of 10 — and unconditionally
at the end of each file, where the last flush always carries the full
final collection. -/
theorem c8_amended (fetch : String → PostcodeResult)
    (files : List (String × List String)) (progress0 : Progress)
    (existing : List PostcodeResult) :
    (∀ e ∈ (runPipeline fetch files progress0 existing).flushes,
      e.2 = false → e.1 % 10 = 0) ∧
    (∀ (isLast : Bool) (fn : String) (pcs : List String) (st : RunState),
      ((processFile fetch isLast fn pcs st).flushes).getLast? =
        some ((processFile fetch isLast fn pcs st).results.length, true)) := by
  constructor
  · have h0 : FlushTagInv
        { progress := progress0, results := existing,
          skip := existing.map (fun r => r.postcode), pending := [],
          lookedUp := [], considered := [], flushes := [], progressSaves := [] } :=
      fun e he => absurd he (List.not_mem_nil e)
    exact processFiles_flushTag fetch _ _ h0
  · exact processFile_last_flush fetch

/-- Fetch oracle used to refute C8: every lookup resolves. -/
def fetchC8 : String → PostcodeResult :=
  fun pc => ⟨pc, "Welsh Water", "0800 052 0140", "https://www.dwrcymru.com"⟩

/-- Corpus used to refute C8: one file of 12 postcodes, committed in
batches of 3, so the collection size at the batch boundaries is 3, 6, 9,
12 — never divisible by 10. -/
def corpusC8 : List (String × List String) :=
  [("a.csv", ["A1", "A2", "A3", "A4", "A5", "A6", "A7", "A8", "A9", "A10", "A11", "A12"])]

/-- C8 counterexample: the run commits 12 records (passing the 10th), yet
its only flush is the unconditional end-of-file one at size 12 — no flush
follows the 10th cumulative committed record, refuting the claim that a
flush happens after every 10th committed record. -/
theorem c8_counterexample :
    (runPipeline fetchC8 corpusC8 ⟨"", "", false⟩ []).results.length = 12 ∧
    (runPipeline fetchC8 corpusC8 ⟨"", "", false⟩ []).flushes = [(12, true)] := by
  refine ⟨by decide, by decide⟩

/-- Fetch oracle used to instantiate the C8 witness. -/
def fetchC8W : String → PostcodeResult :=
  fun pc => ⟨pc, "Wessex Water", "0345 600 3600", "https://www.wessexwater.co.uk"⟩

/-- Preloaded result store with 7 records for the C8 witness. -/
def existingC8W : List PostcodeResult :=
  [⟨"E1", "S", "p", "l"⟩, ⟨"E2", "S", "p", "l"⟩, ⟨"E3", "S", "p", "l"⟩,
   ⟨"E4", "S", "p", "l"⟩, ⟨"E5", "S", "p", "l"⟩, ⟨"E6", "S", "p", "l"⟩,
   ⟨"E7", "S", "p", "l"⟩]

/-- Corpus for the C8 witness: one batch of 3 commits brings the
collection from 7 to 10, producing a mid-file flush at size 10. -/
def corpusC8W : List (String × List String) := [("a.csv", ["N1", "N2", "N3"])]

/-- A run state for instantiating the end-of-file part of C8. -/
def stC8W : RunState :=
  { progress := ⟨"", "", false⟩
    results := []
    skip := []
    pending := []
    lookedUp := []
    considered := []
    flushes := []
    progressSaves := [] }

/-- Witness for C8 amended: the mid-file flush of a concrete run sits at a
collection size divisible by 10, and a concrete `processFile` ends with
the unconditional end-of-file flush of its full collection. -/
theorem c8_witness :
    (10 : Nat) % 10 = 0 ∧
    ((processFile fetchC8W true "a.csv" ["N1"] stC8W).flushes).getLast? =
      some ((processFile fetchC8W true "a.csv" ["N1"] stC8W).results.length, true) :=
  ⟨(c8_amended fetchC8W corpusC8W ⟨"", "", false⟩ existingC8W).1 (10, false)
      (by decide) rfl,
   (c8_amended fetchC8W corpusC8W ⟨"", "", false⟩ existingC8W).2 true "a.csv" ["N1"] stC8W⟩
